import Mathlib

set_option linter.unusedVariables false

/-!
Verification development for the CodeExecutor service.

Shallow embedding of the session store (app/core/redis_client.py,
app/core/session.py), the sandbox executor (app/worker/docker_executor.py),
the worker tasks (app/worker/tasks.py), the execute endpoint
(app/api/routes.py, app/api/schemas.py) and the command-template expander
(app/config.py).  Machine integers do not overflow in any of the modelled
code paths, so Nat/Int are used directly.  Byte strings and their lossy
UTF-8 decoding are modelled as Lean strings: every string literal the code
prepends or compares is plain ASCII, so decoding commutes with the
operations the claims talk about.
-/

/-! ### Association-list primitives

Redis hashes and the key space are modelled as association lists with
set-replace semantics: `setKV` overwrites the first binding of a key or
appends a fresh one, `getKV` returns the first binding.
-/

def getKV {α : Type} : List (String × α) → String → Option α
  | [], _ => none
  | (k, v) :: rest, key => if k = key then some v else getKV rest key

def setKV {α : Type} : List (String × α) → String → α → List (String × α)
  | [], key, val => [(key, val)]
  | (k, v) :: rest, key, val =>
      if k = key then (key, val) :: rest else (k, v) :: setKV rest key val

/-! ### Redis hashes -/

/-- A Redis hash: field name to string value, as stored under `session:<id>`. -/
def Hash := List (String × String)
deriving DecidableEq

/-- HGET on a single field. -/
def hget (h : Hash) (field : String) : Option String := getKV h field

/-- HSET with a mapping: fields are written left to right. -/
def hsetAll (h : Hash) (fields : List (String × String)) : Hash :=
  fields.foldl (fun acc p => setKV acc p.1 p.2) h

/-! ### Python string helpers (app/config.py)

`os.path.basename`, the `rsplit`-based extension strip, `str.strip(chars)`,
`str.split()` with no argument, and the subset of `str.format` that the
run-command templates exercise (named fields `file_path`, `filename`,
`output_path`, doubled-brace escapes, errors on malformed or unknown
fields).  All operate on `List Char`; `String` wrappers sit at the API
boundary.
-/

/-- The characters Python `str.split()` treats as whitespace. -/
def pyIsSpace (c : Char) : Bool :=
  c = ' ' || c = '\t' || c = '\n' || c = '\r' || c = '\x0b' || c = '\x0c'

/-- Python `str.split()` with no argument: split on whitespace runs, drop empties.
`cur` accumulates the current token in reverse. -/
def splitWsAux (cur : List Char) : List Char → List (List Char)
  | [] => if cur.isEmpty then [] else [cur.reverse]
  | c :: rest =>
      if pyIsSpace c then
        if cur.isEmpty then splitWsAux [] rest
        else cur.reverse :: splitWsAux [] rest
      else splitWsAux (c :: cur) rest

def splitWs (l : List Char) : List String := (splitWsAux [] l).map List.asString

/-- Python `str.strip(c)` for a single strip character: remove every leading and
trailing occurrence of `c`. -/
def pyStrip (c : Char) (l : List Char) : List Char :=
  ((l.dropWhile (fun x => x = c)).reverse.dropWhile (fun x => x = c)).reverse

/-- `os.path.basename`: the part after the last slash. -/
def pyBasenameL (l : List Char) : List Char :=
  (l.reverse.takeWhile (fun c => c ≠ '/')).reverse

def pyBasename (s : String) : String := (pyBasenameL s.data).asString

/-- `file_path.rsplit(".", 1)[0] if "." in file_path else file_path`
(config.py:97): everything before the last dot, or the whole string when
there is no dot. -/
def pyStripExtL (l : List Char) : List Char :=
  if l.contains '.' then ((l.reverse.dropWhile (fun c => c ≠ '.')).drop 1).reverse
  else l

def pyStripExt (s : String) : String := (pyStripExtL s.data).asString

/-- Scan a format field name after an opening brace, up to the closing brace.
Returns the field name and the remaining input.  Errors mirror CPython
ValueError texts (sans quoting). -/
def takeKey : List Char → Except String (String × List Char)
  | [] => .error "expected \x7d before end of string"
  | c :: rest =>
      if c = '}' then .ok ("", rest)
      else if c = '{' then .error "unexpected \x7b in field name"
      else
        match takeKey rest with
        | .error e => .error e
        | .ok (key, rest2) => .ok ((c :: key.data).asString, rest2)

/-- The subset of Python `str.format` used by run-command templates
(config.py:99-103): substitutes the three named fields, honours doubled
braces, and errors (as `str.format` raises) on unknown fields or stray
braces.  `fp`, `fn`, `op` are the values of `file_path`, `filename` and
`output_path`.  A named field is recognised by testing for the literal
`name}` right after an opening brace, which on this three-name domain
coincides with scanning to the next closing brace and comparing.  The
`fuel` argument only bounds the recursion depth: one unit is spent per
processed character, so any `fuel ≥ input length` gives the same result
(`fmtAux_fuel_eq`), and the exhaustion arm is unreachable from
`pyFormat3`. -/
def fmtAux (fp fn op : List Char) : Nat → List Char → Except String (List Char)
  | _, [] => .ok []
  | 0, _ :: _ => .error "format fuel exhausted"
  | fuel + 1, c :: rest =>
      if c = '{' then
        if "\x7b".data.isPrefixOf rest then
          (fmtAux fp fn op fuel (rest.drop 1)).map (fun l => '{' :: l)
        else if "file_path\x7d".data.isPrefixOf rest then
          (fmtAux fp fn op fuel (rest.drop "file_path\x7d".data.length)).map (fun l => fp ++ l)
        else if "filename\x7d".data.isPrefixOf rest then
          (fmtAux fp fn op fuel (rest.drop "filename\x7d".data.length)).map (fun l => fn ++ l)
        else if "output_path\x7d".data.isPrefixOf rest then
          (fmtAux fp fn op fuel (rest.drop "output_path\x7d".data.length)).map (fun l => op ++ l)
        else
          match takeKey rest with
          | .error e => .error e
          | .ok (key, _) => .error key
      else if c = '}' then
        if "\x7d".data.isPrefixOf rest then
          (fmtAux fp fn op fuel (rest.drop 1)).map (fun l => '}' :: l)
        else .error "Single \x7d encountered in format string"
      else (fmtAux fp fn op fuel rest).map (fun l => c :: l)

/-- `str.format` restricted to the three named fields: run the scanner with
enough fuel for the whole input. -/
def pyFormat3 (fp fn op : List Char) (t : List Char) : Except String (List Char) :=
  fmtAux fp fn op t.length t

/-! ### Environment configuration (app/config.py) -/

/-- One entry of the environment registry (config.py:71-110). -/
structure EnvironmentConfig where
  name : String
  image : String
  default_filename : String
  file_extension : String
  run_command : String
  description : String := ""
  enabled : Bool := true
  compile_command : Option String := none
deriving DecidableEq

/-- `EnvironmentConfig.get_full_image_name` (config.py:83-85). -/
def EnvironmentConfig.get_full_image_name (ec : EnvironmentConfig) (pfx : String) : String :=
  pfx ++ "-" ++ ec.image

/-- Tokenization step of `EnvironmentConfig.get_run_command` (config.py:105-110):
a command whose expansion starts with the literal `sh -c ` becomes the
three-element argv with the remainder (double quotes stripped, then single
quotes stripped) as one argument; anything else is split on whitespace. -/
def parseCmdL (cmd : List Char) : List String :=
  if "sh -c ".data.isPrefixOf cmd then
    ["sh", "-c", (pyStrip '\'' (pyStrip '"' (cmd.drop 6))).asString]
  else splitWs cmd

/-- `EnvironmentConfig.get_run_command` (config.py:87-110): substitute the
placeholders via `str.format`, then tokenize.  A malformed template makes
`str.format` raise; that is the `.error` case. -/
def EnvironmentConfig.get_run_command (ec : EnvironmentConfig) (file_path : String) :
    Except String (List String) :=
  let filename := pyBasename file_path
  let output_path := pyStripExt file_path
  match pyFormat3 file_path.data filename.data output_path.data ec.run_command.data with
  | .error e => .error e
  | .ok cmd => .ok (parseCmdL cmd)

/-- The configuration fields the modelled components read (config.py:113-161).
The remaining process-configuration fields (Redis/Celery endpoints, API bind,
container resource limits) are not consulted by any claim.  The source name
of `docker_image_pfx` is the `docker_image_prefix` setting. -/
structure Settings where
  docker_image_pfx : String := "code-executor"
  workspace_dir : String := "/workspace"
  executor_user : String := "executor"
  execution_timeout : Nat := 30
  session_ttl : Nat := 3600
  environments : List (String × EnvironmentConfig) := []
  default_environment : String := "python"
deriving DecidableEq

/-- `Settings.environments_list` (config.py:154-157): names of enabled
environments. -/
def Settings.environments_list (s : Settings) : List String :=
  (s.environments.filter (fun p => p.2.enabled)).map Prod.fst

/-- `Settings.get_environment` (config.py:159-161). -/
def Settings.get_environment (s : Settings) (name : String) : Option EnvironmentConfig :=
  getKV s.environments name

/-! ### Sandbox executor (app/worker/docker_executor.py)

The Docker daemon is external: each call that talks to it is parameterized
by the outcome the daemon produces.  `DockerExecutor.execute_code` performs
one round of container lookup, file write, and exec; `ExecOutcome` is what
that round does — the container is gone (`docker.errors.NotFound`), some
other exception is raised with message `msg` (`str(e)`), or the guarded
exec completes with demuxed outputs and an exit code.  Output byte strings
are already-decoded Lean strings; `none` models a `None` stream
(docker_executor.py:130-131).  `elapsed` stands for the measured
wall-clock value (`round(time.time() - start_time, 3)`), carried through
unchanged.
-/

inductive ExecOutcome where
  | notFound
  | raised (msg : String)
  | completed (stdout stderr : Option String) (exit_code : Int) (elapsed : Nat)
deriving DecidableEq

/-- The structured result dictionary of `DockerExecutor.execute_code`
(docker_executor.py:138-158). -/
structure ExecResult where
  stdout : String
  stderr : String
  exit_code : Int
  execution_time : Nat
deriving DecidableEq

namespace DockerExecutor

/-- `DockerExecutor.get_image_name` (docker_executor.py:29-35). -/
def get_image_name (s : Settings) (environment : String) : String :=
  match s.get_environment environment with
  | some env_config => env_config.get_full_image_name s.docker_image_pfx
  | none => s.docker_image_pfx ++ "-" ++ environment

/-- `DockerExecutor.get_default_filename` (docker_executor.py:37-42). -/
def get_default_filename (s : Settings) (environment : String) : String :=
  match s.get_environment environment with
  | some env_config => env_config.default_filename
  | none => "main.py"

/-- `DockerExecutor._get_run_command` (docker_executor.py:160-172).  The
fallback path cannot raise, hence always `.ok`. -/
def _get_run_command (s : Settings) (environment : String) (file_path : String) :
    Except String (List String) :=
  match s.get_environment environment with
  | some env_config => env_config.get_run_command file_path
  | none => .ok ["python", file_path]

/-- Message of the `KeyError`/`ValueError` escaping `str.format` inside the
try block, reported through the generic exception handler. -/
def fmtRaisedResult (e : String) : ExecResult :=
  { stdout := "", stderr := "Execution error: " ++ e, exit_code := -1, execution_time := 0 }

/-- `DockerExecutor.execute_code` (docker_executor.py:89-158).  Note the
declared parameters: there is no `stdin_data`.  The container lookup, the
`cat > file` exec and the guarded run are summarized by `outcome`; the
run-command expansion (docker_executor.py:119) happens before the final
exec, so a template error surfaces through the generic `except Exception`
branch (docker_executor.py:152-158) even when the daemon round would have
completed. -/
def execute_code (s : Settings) (container_id : String) (code : String)
    (environment : String) (filename : Option String) (outcome : ExecOutcome) : ExecResult :=
  let filename' := filename.getD (get_default_filename s environment)
  let file_path := s.workspace_dir ++ "/" ++ filename'
  match outcome with
  | .notFound =>
      { stdout := ""
        stderr := "Container not found. Session may have expired."
        exit_code := -1
        execution_time := 0 }
  | .raised msg =>
      { stdout := ""
        stderr := "Execution error: " ++ msg
        exit_code := -1
        execution_time := 0 }
  | .completed so se ec elapsed =>
      match _get_run_command s environment file_path with
      | .error e => fmtRaisedResult e
      | .ok _run_cmd =>
          let stdout := so.getD ""
          let stderr := se.getD ""
          let stderr := if ec = 124 then "Execution timed out\n" ++ stderr else stderr
          { stdout := stdout
            stderr := stderr
            exit_code := ec
            execution_time := elapsed }

/-- One managed container as the reaper sees it: Docker id, labels, and
whether it is running (`containers.list` only reports running containers). -/
structure DContainer where
  id : String
  labels : List (String × String)
  running : Bool
deriving DecidableEq

/-- `DockerExecutor.cleanup_orphaned_containers` (docker_executor.py:182-198):
lists the running containers labelled `code-executor=true` and stops and
removes every one of them, returning the removed ids.  The function receives
no session store and performs no per-session check. -/
def cleanup_orphaned_containers (dk : List DContainer) : List DContainer × List String :=
  let listed := dk.filter (fun c => c.running && getKV c.labels "code-executor" == some "true")
  (dk.filter (fun c => ¬ (c.running && getKV c.labels "code-executor" == some "true")),
   listed.map DContainer.id)

end DockerExecutor

/-! ### Session store (app/core/redis_client.py)

The per-session keys of redis_client.py all derive from the session id, so
the state is keyed by id directly: the `session:<id>` hash, its TTL
deadline (EXPIRE at time `now` sets the deadline `now + session_ttl`; a
refresh is an updated deadline), and the `active_sessions` set.  The
`session:<id>:result` key is written only by `set_execution_result`, which
is reachable solely from the dead happy path of the execute worker (see
`tasks.execute_code`), so result records never change; the key map is kept
to state that.  Timestamps (`datetime.utcnow().isoformat()`) are opaque to
every claim and modelled as `""`.
-/

structure RedisState where
  sessions : List (String × Hash)
  ttlDeadline : List (String × Nat)
  results : List (String × String)
  active : List String
deriving DecidableEq

def RedisState.empty : RedisState := ⟨[], [], [], []⟩

namespace RedisClient

/-- SADD on the `active_sessions` set. -/
def sadd (l : List String) (x : String) : List String :=
  if x ∈ l then l else l ++ [x]

/-- `RedisClient.create_session` (redis_client.py:48-70): HSET the full field
mapping (existing fields of a same-id hash are overwritten field by field,
as HSET does), EXPIRE, SADD. -/
def create_session (s : Settings) (now : Nat) (st : RedisState)
    (session_id environment status : String) : RedisState :=
  let session_data := [("session_id", session_id), ("environment", environment),
                       ("status", status), ("created_at", ""),
                       ("last_execution", ""), ("container_id", "")]
  { st with
      sessions := setKV st.sessions session_id
        (hsetAll ((getKV st.sessions session_id).getD []) session_data)
      ttlDeadline := setKV st.ttlDeadline session_id (now + s.session_ttl)
      active := sadd st.active session_id }

/-- `RedisClient.get_session` (redis_client.py:72-74): HGETALL, `None` when
the hash is empty or absent. -/
def get_session (st : RedisState) (session_id : String) : Option Hash :=
  match getKV st.sessions session_id with
  | some h => if List.isEmpty h then none else some h
  | none => none

/-- The `None`-dropping filter of `update_session` (redis_client.py:78). -/
def filteredKwargs (kwargs : List (String × Option String)) : List (String × String) :=
  kwargs.filterMap (fun p => p.2.map (fun v => (p.1, v)))

/-- `RedisClient.update_session` (redis_client.py:76-84): drop `None` values,
and when anything is left, HSET it and refresh the TTL.  An all-`None`
update touches nothing. -/
def update_session (s : Settings) (now : Nat) (st : RedisState)
    (session_id : String) (kwargs : List (String × Option String)) : RedisState :=
  let filtered := filteredKwargs kwargs
  if filtered = [] then st
  else
    { st with
        sessions := setKV st.sessions session_id
          (hsetAll ((getKV st.sessions session_id).getD []) filtered)
        ttlDeadline := setKV st.ttlDeadline session_id (now + s.session_ttl) }

/-- `RedisClient.set_status` (redis_client.py:94-95). -/
def set_status (s : Settings) (now : Nat) (st : RedisState)
    (session_id status : String) : RedisState :=
  update_session s now st session_id [("status", some status)]

/-- `RedisClient.set_container_id` (redis_client.py:101-102). -/
def set_container_id (s : Settings) (now : Nat) (st : RedisState)
    (session_id container_id : String) : RedisState :=
  update_session s now st session_id [("container_id", some container_id)]

/-- `RedisClient.get_status` (redis_client.py:97-98): HGET on the field. -/
def get_status (st : RedisState) (session_id : String) : Option String :=
  hget ((getKV st.sessions session_id).getD []) "status"

/-- `RedisClient.get_container_id` (redis_client.py:104-105). -/
def get_container_id (st : RedisState) (session_id : String) : Option String :=
  hget ((getKV st.sessions session_id).getD []) "container_id"

/-- `RedisClient.session_exists` (redis_client.py:90-91): EXISTS on the hash
key (Redis drops empty hashes, and no modelled writer leaves one). -/
def session_exists (st : RedisState) (session_id : String) : Bool :=
  match getKV st.sessions session_id with
  | some h => ¬ List.isEmpty h
  | none => false

end RedisClient

/-! ### Worker tasks (app/worker/tasks.py)

Each task is a function from the store state to the list of successive
store states, one per store write, together with its JSON result where a
claim reads it (only `execute_code` needs the result).  The session-manager
layer (app/core/session.py) is a direct pass-through to the Redis client
and is inlined.  `now` is fixed to `0` in traces: the claims touched by the
tasks do not mention TTLs or wall-clock values.
-/

/-- Outcome of `DockerExecutor.create_container` inside `start_session`: the
id of the started container, or the message of the raised exception
(e.g. the image-not-found `DockerException`). -/
inductive CreateOutcome where
  | ok (container_id : String)
  | failure (msg : String)
deriving DecidableEq

/-- The result dictionary of the `execute_code` task (tasks.py:60-125): every
branch of the task returns these keys (`error` is absent on the success
branch, modelled as `none`). -/
structure ExecTaskResult where
  success : Bool
  session_id : String
  error : Option String
  stdout : String
  stderr : String
  exit_code : Int
  execution_time : Nat
deriving DecidableEq

namespace tasks

/-- What `str(e)` yields for the `TypeError` raised at the call
docker_executor.execute_code(..., stdin_data=...) (tasks.py:88-94):
`DockerExecutor.execute_code` declares no `stdin_data` parameter
(docker_executor.py:89-95), so the call itself raises before the method
body runs.  CPython quotes the keyword name; the quotes are omitted here. -/
def stdinTypeError : String :=
  "DockerExecutor.execute_code got an unexpected keyword argument stdin_data"

/-- `start_session` task (tasks.py:11-42): set `creating`, create the
container, store the handle, set `ready`; on exception set `error` and
record the message. -/
def start_session (s : Settings) (st : RedisState) (session_id environment : String)
    (outcome : CreateOutcome) : List RedisState :=
  let st1 := RedisClient.set_status s 0 st session_id "creating"
  match outcome with
  | .ok cid =>
      let st2 := RedisClient.set_container_id s 0 st1 session_id cid
      let st3 := RedisClient.set_status s 0 st2 session_id "ready"
      [st1, st2, st3]
  | .failure msg =>
      let st2 := RedisClient.set_status s 0 st1 session_id "error"
      let st3 := RedisClient.update_session s 0 st2 session_id [("error", some msg)]
      [st1, st2, st3]

/-- `execute_code` task (tasks.py:45-125).  After the status write to
`executing`, the call into the executor necessarily raises `TypeError`
(see `stdinTypeError`), so control always reaches the handler at
tasks.py:115-125: status goes to `error`, no result is saved, and the
task returns the failure dictionary.  The happy path of tasks.py:96-113
(save result, restore `ready`) is unreachable. -/
def execute_code (s : Settings) (st : RedisState) (session_id code : String)
    (filename stdin_data : Option String) : List RedisState × ExecTaskResult :=
  match RedisClient.get_session st session_id with
  | none =>
      ([], { success := false, session_id := session_id
             error := some "Session not found", stdout := ""
             stderr := "Session not found", exit_code := -1, execution_time := 0 })
  | some session =>
      -- Python truthiness of session.get("container_id"): missing or empty is falsy
      if (hget session "container_id").getD "" = "" then
        ([], { success := false, session_id := session_id
               error := some "Container not found for session", stdout := ""
               stderr := "Container not found", exit_code := -1, execution_time := 0 })
      else
        let st1 := RedisClient.set_status s 0 st session_id "executing"
        let st2 := RedisClient.set_status s 0 st1 session_id "error"
        ([st1, st2],
         { success := false, session_id := session_id
           error := some stdinTypeError, stdout := ""
           stderr := stdinTypeError, exit_code := -1, execution_time := 0 })

/-- `stop_session` task (tasks.py:128-158): read the handle, set `stopping`,
stop the container when a handle exists, set `stopped`.  `stop_container`
swallows `NotFound` and `APIError` (docker_executor.py:78-87);
`stop_raises` covers any other exception escaping it, which lands in the
task handler (tasks.py:153-158) after only the first status write. -/
def stop_session (s : Settings) (st : RedisState) (session_id : String)
    (stop_raises : Bool) : List RedisState :=
  let _container_id := RedisClient.get_container_id st session_id
  let st1 := RedisClient.set_status s 0 st session_id "stopping"
  if stop_raises then [st1]
  else [st1, RedisClient.set_status s 0 st1 session_id "stopped"]

end tasks

/-! ### Session coordinator and traces

`SessionManager.create_session` (session.py:13-27) validates the
environment, draws a fresh uuid and writes the `pending` record; the uuid
is carried as the op's `id`.  A trace interleaves these store operations;
an intermediate point is the store state after any single write of any
operation.
-/

inductive Op where
  | create (id environment : String)
  | startSession (id environment : String) (outcome : CreateOutcome)
  | execCode (id code : String) (filename stdin_data : Option String)
  | stopSession (id : String) (stop_raises : Bool)
deriving DecidableEq

/-- Well-formed oracle data: Docker container ids are non-empty strings. -/
def Op.wfB : Op → Bool
  | .startSession _ _ (.ok cid) => cid ≠ ""
  | _ => true

/-- The store states written by one operation, in order. -/
def opStates (s : Settings) (st : RedisState) : Op → List RedisState
  | .create id env =>
      -- session.py:15-26: invalid environments raise before any store write
      if env ∈ s.environments_list then [RedisClient.create_session s 0 st id env "pending"]
      else []
  | .startSession id env outcome => tasks.start_session s st id env outcome
  | .execCode id code filename stdin_data =>
      (tasks.execute_code s st id code filename stdin_data).1
  | .stopSession id stop_raises => tasks.stop_session s st id stop_raises

/-- All intermediate store states of a trace, starting from `st`. -/
def traceStates (s : Settings) (st : RedisState) : List Op → List RedisState
  | [] => []
  | op :: ops =>
      let l := opStates s st op
      l ++ traceStates s (l.getLastD st) ops

/-! ### Execute endpoint (app/api/routes.py, app/api/schemas.py) -/

/-- `ExecuteCodeRequest` (schemas.py:30-36).  The model declares exactly two
fields, `code` and `filename`; there is no `stdin` field. -/
structure ExecuteCodeRequest where
  code : String
  filename : Option String
deriving DecidableEq

/-- Outcome of the HTTP handler: a 2xx `ExecuteCodeResponse` body, or an
`HTTPException` with its status code and detail. -/
inductive EndpointResult where
  | ok (session_id stdout stderr : String) (exit_code : Int) (execution_time : Nat)
      (status : String)
  | httpError (statusCode : Nat) (detail : String)
deriving DecidableEq

/-- How Python renders `session.get("status")` into the f-string at
routes.py:138: a missing field prints as `None`. -/
def pyOptionStr : Option String → String
  | some s => s
  | none => "None"

/-- Detail string of the 400 raised by the status gate (routes.py:117-139),
as a function of the session's stored status. -/
def gateDetail (status : Option String) : String :=
  if status = some "pending" then
    "Session container is still starting. Please wait and retry."
  else if status = some "creating" then
    "Session container is being created. Please wait and retry."
  else if status = some "stopped" ∨ status = some "stopping" then
    "Session has been stopped."
  else
    "Session is not ready for execution. Status: " ++ pyOptionStr status

/-- Detail of the 500 produced when the try block at routes.py:141-146
evaluates `request.stdin`: `ExecuteCodeRequest` defines no such field, so
the attribute access raises `AttributeError`, converted by the handler at
routes.py:167-171.  CPython quotes the two names; quotes are omitted. -/
def stdinAttributeError : String :=
  "Execution failed: ExecuteCodeRequest object has no attribute stdin"

/-- `execute_code_endpoint` (routes.py:101-171).  Returns the HTTP outcome,
the names of the Celery tasks submitted, and the store state after the
handler (the handler itself only reads the store).  On a session in
`ready`/`executing` the gate is passed, and building the `send_task`
argument list evaluates `request.stdin` (routes.py:145), which raises
before any task is sent; see `stdinAttributeError`. -/
def execute_code_endpoint (st : RedisState) (session_id : String)
    (request : ExecuteCodeRequest) : EndpointResult × List String × RedisState :=
  match RedisClient.get_session st session_id with
  | none => (.httpError 404 ("Session " ++ session_id ++ " not found"), [], st)
  | some session =>
      let current_status := hget session "status"
      if current_status = some "ready" ∨ current_status = some "executing" then
        (.httpError 500 stdinAttributeError, [], st)
      else
        (.httpError 400 (gateDetail current_status), [], st)

/-! ### Sample store states used by concrete evaluations -/

/-- The `session:s` hash as left by a successful `start_session` for a
`python` session whose container is `c1`. -/
def sessionReadyHash : Hash :=
  [("session_id", "s"), ("environment", "python"), ("status", "ready"),
   ("created_at", ""), ("last_execution", ""), ("container_id", "c1")]

/-- A store holding exactly the session `s` in status `ready`. -/
def sessionReadyState : RedisState :=
  { sessions := [("s", sessionReadyHash)], ttlDeadline := [("s", 3600)],
    results := [], active := ["s"] }

/-- The `session:s` hash after `stop_session` completed: status `stopped`,
container handle still recorded. -/
def sessionStoppedHash : Hash :=
  [("session_id", "s"), ("environment", "python"), ("status", "stopped"),
   ("created_at", ""), ("last_execution", ""), ("container_id", "c1")]

/-- A store holding exactly the session `s` in status `stopped`. -/
def sessionStoppedState : RedisState :=
  { sessions := [("s", sessionStoppedHash)], ttlDeadline := [("s", 3600)],
    results := [], active := ["s"] }

/-! ### C9 — run-command expansion

A well-formed template is an alternation of brace-free literal chunks and
the three named placeholders; `Tmpl.renderL` prints it back to the template
string the registry stores, `Tmpl.substL` is the plain substitution the
specification describes.  The theorem shows the code's `str.format`-based
expansion agrees with plain substitution on every well-formed template, and
characterizes the tokenization of the expanded command.
-/

inductive TmplPiece where
  | lit (s : String)
  | file_path
  | filename
  | output_path
deriving DecidableEq

def TmplPiece.renderL : TmplPiece → List Char
  | .lit s => s.data
  | .file_path => "{file_path}".data
  | .filename => "{filename}".data
  | .output_path => "{output_path}".data

def TmplPiece.substL (fp fn op : List Char) : TmplPiece → List Char
  | .lit s => s.data
  | .file_path => fp
  | .filename => fn
  | .output_path => op

def braceFreeB (s : String) : Bool := s.data.all (fun c => (c != '{') && (c != '}'))

def TmplPiece.wfB : TmplPiece → Bool
  | .lit s => braceFreeB s
  | _ => true

def Tmpl.renderL (t : List TmplPiece) : List Char := (t.map TmplPiece.renderL).flatten

def Tmpl.substL (fp fn op : List Char) (t : List TmplPiece) : List Char :=
  (t.map (TmplPiece.substL fp fn op)).flatten

def Tmpl.wf (t : List TmplPiece) : Prop := ∀ p ∈ t, p.wfB = true

instance (t : List TmplPiece) : Decidable (Tmpl.wf t) :=
  List.decidableBAll (fun p => TmplPiece.wfB p = true) t

/-- The registry entry for `python` as config/environments.yaml defines it. -/
def pythonEnvConfig : EnvironmentConfig :=
  { name := "python", image := "python", default_filename := "main.py",
    file_extension := ".py", run_command := "python {file_path}" }

/-! ### C3 — container handle versus status, along traces -/

/-- Per-hash form of the amended invariant: a session hash in status
`ready` or `executing` carries a non-empty `container_id`. -/
def hashOK (h : Hash) : Prop :=
  (hget h "status" = some "ready" ∨ hget h "status" = some "executing") →
    (hget h "container_id").getD "" ≠ ""

instance (h : Hash) : Decidable (hashOK h) := by
  unfold hashOK
  infer_instance

/-- C3 amended invariant as a predicate on store states: every recorded
session in status `ready` or `executing` has a non-empty container handle. -/
def readyHasContainer (st : RedisState) : Prop := ∀ p ∈ st.sessions, hashOK p.2

instance (st : RedisState) : Decidable (readyHasContainer st) :=
  List.decidableBAll (fun (p : String × Hash) => hashOK p.2) st.sessions

/-- The invariant exactly as claim C3 states it: non-empty container handle
iff status ∈ {ready, executing, stopping}. -/
def containerIffStatus (st : RedisState) : Prop :=
  ∀ p ∈ st.sessions,
    ((hget p.2 "container_id").getD "" ≠ "") ↔
      (hget p.2 "status" = some "ready" ∨ hget p.2 "status" = some "executing" ∨
        hget p.2 "status" = some "stopping")

instance (st : RedisState) : Decidable (containerIffStatus st) :=
  List.decidableBAll
    (fun (p : String × Hash) => ((hget p.2 "container_id").getD "" ≠ "") ↔
      (hget p.2 "status" = some "ready" ∨ hget p.2 "status" = some "executing" ∨
        hget p.2 "status" = some "stopping")) st.sessions

/-- Settings with the `python` environment enabled, for concrete traces. -/
def sampleSettings : Settings := { environments := [("python", pythonEnvConfig)] }

/-- Ops of the concrete trace used to instantiate the C3 theorem. -/
def c3TraceOps : List Op :=
  [Op.create "s" "python", Op.startSession "s" "python" (.ok "c1"),
   Op.execCode "s" "print(1)" none none, Op.stopSession "s" false]

/-! ## Theorems -/

theorem getKV_setKV_self {α : Type} (l : List (String × α)) (k : String) (v : α) :
    getKV (setKV l k v) k = some v := by
  induction l with
  | nil => simp [getKV, setKV]
  | cons p rest ih =>
      obtain ⟨k0, v0⟩ := p
      by_cases h : k0 = k
      · simp [getKV, setKV, h]
      · simp [getKV, setKV, h, ih]

theorem getKV_setKV_ne {α : Type} (l : List (String × α)) (k k' : String) (v : α)
    (h : k' ≠ k) : getKV (setKV l k v) k' = getKV l k' := by
  have hne : ¬ k = k' := fun hh => h hh.symm
  induction l with
  | nil => simp [getKV, setKV, hne]
  | cons p rest ih =>
      obtain ⟨k0, v0⟩ := p
      by_cases h0 : k0 = k
      · subst h0
        simp [getKV, setKV, hne]
      · by_cases h1 : k0 = k'
        · subst h1
          simp [getKV, setKV, h0]
        · simp [getKV, setKV, h0, h1, ih]

theorem mem_setKV {α : Type} (l : List (String × α)) (k : String) (v : α) :
    ∀ p ∈ setKV l k v, p = (k, v) ∨ p ∈ l := by
  induction l with
  | nil =>
      intro p hp
      simpa [setKV] using hp
  | cons q rest ih =>
      obtain ⟨k0, v0⟩ := q
      intro p hp
      by_cases h0 : k0 = k
      · simp only [setKV, if_pos h0, List.mem_cons] at hp
        rcases hp with hp | hp
        · exact Or.inl hp
        · exact Or.inr (List.mem_cons_of_mem _ hp)
      · simp only [setKV, if_neg h0, List.mem_cons] at hp
        rcases hp with hp | hp
        · exact Or.inr (by simp [hp])
        · rcases ih p hp with h' | h'
          · exact Or.inl h'
          · exact Or.inr (List.mem_cons_of_mem _ h')

theorem hget_hsetAll_not_mem (fields : List (String × String)) (h : Hash) (k : String)
    (hk : k ∉ fields.map Prod.fst) : hget (hsetAll h fields) k = hget h k := by
  induction fields generalizing h with
  | nil => rfl
  | cons p rest ih =>
      obtain ⟨k0, v0⟩ := p
      simp only [List.map_cons, List.mem_cons] at hk
      push_neg at hk
      have : hget (hsetAll (setKV h k0 v0) rest) k = hget (setKV h k0 v0) k :=
        ih (setKV h k0 v0) hk.2
      calc hget (hsetAll h ((k0, v0) :: rest)) k
          = hget (hsetAll (setKV h k0 v0) rest) k := rfl
        _ = hget (setKV h k0 v0) k := this
        _ = hget h k := getKV_setKV_ne h k0 k v0 hk.1

theorem hget_hsetAll_mem (fields : List (String × String)) (h : Hash) (k : String) (v : String)
    (hnd : (fields.map Prod.fst).Nodup) (hmem : (k, v) ∈ fields) :
    hget (hsetAll h fields) k = some v := by
  induction fields generalizing h with
  | nil => cases hmem
  | cons p rest ih =>
      obtain ⟨k0, v0⟩ := p
      simp only [List.map_cons, List.nodup_cons] at hnd
      rcases List.mem_cons.mp hmem with h0 | h0
      · injection h0 with hk hv
        subst hk; subst hv
        have hnot : k ∉ rest.map Prod.fst := hnd.1
        calc hget (hsetAll h ((k, v) :: rest)) k
            = hget (hsetAll (setKV h k v) rest) k := rfl
          _ = hget (setKV h k v) k := hget_hsetAll_not_mem rest _ k hnot
          _ = some v := getKV_setKV_self h k v
      · exact ih (setKV h k0 v0) hnd.2 h0

/-! ### C10 — registry fallbacks for unknown environments -/

/-- C10: for an environment absent from the registry, `get_image_name` falls
back to the prefixed environment name, `get_default_filename` to `main.py`,
and `_get_run_command` to `["python", file_path]`; none of them fails. -/
theorem unknown_environment_fallbacks (s : Settings) (environment fp : String)
    (h : s.get_environment environment = none) :
    DockerExecutor.get_image_name s environment = s.docker_image_pfx ++ "-" ++ environment
    ∧ DockerExecutor.get_default_filename s environment = "main.py"
    ∧ DockerExecutor._get_run_command s environment fp = .ok ["python", fp] := by
  refine ⟨?_, ?_, ?_⟩ <;>
    simp [DockerExecutor.get_image_name, DockerExecutor.get_default_filename,
      DockerExecutor._get_run_command, h]

/-- Concrete instance of `unknown_environment_fallbacks` at the default
settings (empty registry) and environment `cobol`. -/
theorem unknown_environment_fallbacks_witness :
    (Settings.get_environment {} "cobol" = none)
    ∧ DockerExecutor.get_image_name {} "cobol" = "code-executor" ++ "-" ++ "cobol"
    ∧ DockerExecutor.get_default_filename {} "cobol" = "main.py"
    ∧ DockerExecutor._get_run_command {} "cobol" "/workspace/main.py"
        = .ok ["python", "/workspace/main.py"] := by
  have h := unknown_environment_fallbacks {} "cobol" "/workspace/main.py" (by decide)
  exact ⟨by decide, h.1, h.2.1, h.2.2⟩

/-! ### C6 — the executor returns structured results instead of raising -/

/-- C6 counterexample: on a runtime exception with message `boom` the result
stderr is `Execution error: boom`, not the bare exception message as the
claim states. -/
theorem executor_stderr_not_bare_message :
    (DockerExecutor.execute_code {} "c1" "x" "python" none (.raised "boom")).stderr
      = "Execution error: boom"
    ∧ (DockerExecutor.execute_code {} "c1" "x" "python" none (.raised "boom")).stderr
      ≠ "boom" := by
  exact ⟨rfl, by decide⟩

/-- C6 amended: `DockerExecutor.execute_code` is total over every daemon
outcome (it never raises).  When the container is gone it returns exit
code `-1` with the fixed human-readable stderr; on any other runtime
exception with message `msg` it returns exit code `-1` with stderr
`"Execution error: "` followed by `msg`. -/
theorem executor_execute_code_total (s : Settings) (container_id code environment : String)
    (filename : Option String) (outcome : ExecOutcome) :
    (outcome = .notFound →
      DockerExecutor.execute_code s container_id code environment filename outcome =
        { stdout := "", stderr := "Container not found. Session may have expired.",
          exit_code := -1, execution_time := 0 })
    ∧ (∀ msg, outcome = .raised msg →
      DockerExecutor.execute_code s container_id code environment filename outcome =
        { stdout := "", stderr := "Execution error: " ++ msg,
          exit_code := -1, execution_time := 0 }) := by
  constructor
  · rintro rfl
    rfl
  · rintro msg rfl
    rfl

/-- Concrete instance of `executor_execute_code_total` for both handled
exception shapes. -/
theorem executor_execute_code_total_witness :
    DockerExecutor.execute_code {} "c1" "x" "python" none .notFound =
      { stdout := "", stderr := "Container not found. Session may have expired.",
        exit_code := -1, execution_time := 0 }
    ∧ DockerExecutor.execute_code {} "c1" "x" "python" none (.raised "m") =
      { stdout := "", stderr := "Execution error: " ++ "m",
        exit_code := -1, execution_time := 0 } :=
  ⟨(executor_execute_code_total {} "c1" "x" "python" none .notFound).1 rfl,
   (executor_execute_code_total {} "c1" "x" "python" none (.raised "m")).2 "m" rfl⟩

/-! ### C7 — exit code 124 marks a timeout in stderr -/

/-- C7: whenever `DockerExecutor.execute_code` reports exit code `124`, its
stderr begins with the timeout marker line. -/
theorem timeout_stderr_marker (s : Settings) (container_id code environment : String)
    (filename : Option String) (outcome : ExecOutcome)
    (h : (DockerExecutor.execute_code s container_id code environment filename
            outcome).exit_code = 124) :
    ∃ rest, (DockerExecutor.execute_code s container_id code environment filename
          outcome).stderr = "Execution timed out\n" ++ rest := by
  cases outcome with
  | notFound =>
      simp [DockerExecutor.execute_code] at h
  | raised msg =>
      simp [DockerExecutor.execute_code] at h
  | completed so se ec elapsed =>
      simp only [DockerExecutor.execute_code] at h ⊢
      cases hrc : DockerExecutor._get_run_command s environment
          (s.workspace_dir ++ "/" ++
            filename.getD (DockerExecutor.get_default_filename s environment)) with
      | error e =>
          rw [hrc] at h
          simp [DockerExecutor.fmtRaisedResult] at h
      | ok cmd =>
          rw [hrc] at h
          by_cases h124 : ec = 124
          · subst h124
            exact ⟨se.getD "", by simp⟩
          · exact absurd h h124

/-! ### C4 — the orphan sweep ignores session records -/

/-- C4 failing input: one running container `c1` labelled
`code-executor=true` with `session_id=s`, while the session `s` exists in
the store.  `cleanup_orphaned_containers` removes the container and reports
it anyway — it never consults the store, contradicting its own docstring
("Remove containers that are no longer associated with active sessions"). -/
theorem orphan_sweep_removes_live_session_container :
    RedisClient.session_exists sessionReadyState "s" = true
    ∧ DockerExecutor.cleanup_orphaned_containers
        [{ id := "c1"
           labels := [("code-executor", "true"), ("session_id", "s"), ("environment", "python")]
           running := true }]
      = ([], ["c1"]) := by
  decide

/-! ### C1 — the execute worker cannot complete its happy path -/

/-- C1 failing input: session `s` exists with status `ready` and container
`c1`.  The worker writes `executing`, then the call into
`DockerExecutor.execute_code` raises `TypeError` (unexpected keyword
`stdin_data`), so the task ends with `success=false`, the session status
is `error`, and no execution result is saved — the save/restore-`ready`
sequence of the claim never happens. -/
theorem execute_worker_always_errors :
    (tasks.execute_code {} sessionReadyState "s" "print(1)" none none).2.success = false
    ∧ (tasks.execute_code {} sessionReadyState "s" "print(1)" none none).2.exit_code = -1
    ∧ (tasks.execute_code {} sessionReadyState "s" "print(1)" none none).2.stderr
        = tasks.stdinTypeError
    ∧ RedisClient.get_status
        ((tasks.execute_code {} sessionReadyState "s" "print(1)" none none).1.headD
          sessionReadyState) "s" = some "executing"
    ∧ RedisClient.get_status
        ((tasks.execute_code {} sessionReadyState "s" "print(1)" none none).1.getLastD
          sessionReadyState) "s" = some "error"
    ∧ ((tasks.execute_code {} sessionReadyState "s" "print(1)" none none).1.getLastD
          sessionReadyState).results = sessionReadyState.results := by
  decide

/-! ### C2 — the execute endpoint cannot submit the task -/

/-- C2 failing input: POST /sessions/s/execute with body `{code: print(1)}`
against the session `s` in status `ready`.  The handler passes the status
gate, then evaluating `request.stdin` raises `AttributeError`
(`ExecuteCodeRequest` has no `stdin` field), which the handler converts to
HTTP 500; no `execute_code` task is submitted and no result is awaited. -/
theorem endpoint_execute_raises_attribute_error :
    execute_code_endpoint sessionReadyState "s" { code := "print(1)", filename := none }
      = (.httpError 500 stdinAttributeError, [], sessionReadyState) := by
  decide

/-! ### C5 — the status gate -/

/-- C5: for an existing session whose stored status is neither `ready` nor
`executing`, the execute endpoint answers 400 with the status-dependent
detail (`gateDetail`), submits no task, and leaves the store exactly as it
was. -/
theorem status_gate_rejects_without_mutation (st : RedisState) (session_id : String)
    (request : ExecuteCodeRequest) (session : Hash)
    (hs : RedisClient.get_session st session_id = some session)
    (h1 : hget session "status" ≠ some "ready")
    (h2 : hget session "status" ≠ some "executing") :
    execute_code_endpoint st session_id request
      = (.httpError 400 (gateDetail (hget session "status")), [], st) := by
  unfold execute_code_endpoint
  rw [hs]
  simp [h1, h2]

/-- Concrete instance of `status_gate_rejects_without_mutation`: the stopped
session `s` is rejected with the stopped-session message. -/
theorem status_gate_rejects_without_mutation_witness :
    execute_code_endpoint sessionStoppedState "s" { code := "x", filename := none }
      = (.httpError 400 (gateDetail (hget sessionStoppedHash "status")), [],
         sessionStoppedState) :=
  status_gate_rejects_without_mutation sessionStoppedState "s"
    { code := "x", filename := none } sessionStoppedHash
    (by decide) (by decide) (by decide)

/-! ### C8 — partial updates drop only None, and refresh the TTL -/

theorem getKV_cons_self {α : Type} (k : String) (v : α) (rest : List (String × α)) :
    getKV ((k, v) :: rest) k = some v := by
  simp [getKV]

theorem getKV_cons_ne {α : Type} (k0 k : String) (v : α) (rest : List (String × α))
    (h : k0 ≠ k) : getKV ((k0, v) :: rest) k = getKV rest k := by
  simp [getKV, h]

theorem filteredKwargs_cons_none (k : String) (rest : List (String × Option String)) :
    RedisClient.filteredKwargs ((k, none) :: rest) = RedisClient.filteredKwargs rest := rfl

theorem filteredKwargs_cons_some (k w : String) (rest : List (String × Option String)) :
    RedisClient.filteredKwargs ((k, some w) :: rest)
      = (k, w) :: RedisClient.filteredKwargs rest := rfl

theorem filteredKwargs_keys_sublist (kwargs : List (String × Option String)) :
    ((RedisClient.filteredKwargs kwargs).map Prod.fst).Sublist (kwargs.map Prod.fst) := by
  induction kwargs with
  | nil => simp [RedisClient.filteredKwargs]
  | cons p rest ih =>
      obtain ⟨k, v⟩ := p
      cases v with
      | none =>
          rw [filteredKwargs_cons_none]
          simpa using ih.cons k
      | some w =>
          rw [filteredKwargs_cons_some]
          simpa using ih.cons₂ k

theorem getKV_none_not_mem_filtered (kwargs : List (String × Option String)) (k : String)
    (hnd : (kwargs.map Prod.fst).Nodup) (h : getKV kwargs k = some none) :
    k ∉ (RedisClient.filteredKwargs kwargs).map Prod.fst := by
  induction kwargs with
  | nil => simp [getKV] at h
  | cons p rest ih =>
      obtain ⟨k0, v0⟩ := p
      simp only [List.map_cons, List.nodup_cons] at hnd
      by_cases hk : k0 = k
      · subst hk
        rw [getKV_cons_self] at h
        injection h with h
        subst h
        rw [filteredKwargs_cons_none]
        intro hmem
        exact hnd.1 ((filteredKwargs_keys_sublist rest).mem hmem)
      · rw [getKV_cons_ne k0 k v0 rest hk] at h
        have hrest := ih hnd.2 h
        cases v0 with
        | none =>
            rw [filteredKwargs_cons_none]
            exact hrest
        | some w =>
            rw [filteredKwargs_cons_some]
            simp only [List.map_cons, List.mem_cons]
            intro hmem
            rcases hmem with h1 | h1
            · exact hk h1.symm
            · exact hrest h1

theorem getKV_some_mem_filtered (kwargs : List (String × Option String)) (k v : String)
    (h : getKV kwargs k = some (some v)) : (k, v) ∈ RedisClient.filteredKwargs kwargs := by
  induction kwargs with
  | nil => simp [getKV] at h
  | cons p rest ih =>
      obtain ⟨k0, v0⟩ := p
      by_cases hk : k0 = k
      · subst hk
        rw [getKV_cons_self] at h
        injection h with h
        subst h
        rw [filteredKwargs_cons_some]
        exact List.mem_cons_self _ _
      · rw [getKV_cons_ne k0 k v0 rest hk] at h
        have hrest := ih h
        cases v0 with
        | none =>
            rw [filteredKwargs_cons_none]
            exact hrest
        | some w =>
            rw [filteredKwargs_cons_some]
            exact List.mem_cons_of_mem _ hrest

/-- C8 amended: in `update_session`, fields valued `None` are silently
dropped (the stored field keeps its prior value) while every non-`None`
value — the empty string included — is written; and whenever at least one
field survives the `None` filter, the record's TTL deadline is refreshed,
whereas an update whose fields are all `None` writes nothing and does not
touch the TTL. -/
theorem update_session_amended (s : Settings) (now : Nat) (st : RedisState)
    (session_id : String) (kwargs : List (String × Option String))
    (hnd : (kwargs.map Prod.fst).Nodup) :
    (∀ k, getKV kwargs k = some none →
      hget ((getKV (RedisClient.update_session s now st session_id kwargs).sessions
          session_id).getD []) k
        = hget ((getKV st.sessions session_id).getD []) k)
    ∧ (∀ k v, getKV kwargs k = some (some v) →
      hget ((getKV (RedisClient.update_session s now st session_id kwargs).sessions
          session_id).getD []) k = some v)
    ∧ (RedisClient.filteredKwargs kwargs ≠ [] →
      getKV (RedisClient.update_session s now st session_id kwargs).ttlDeadline session_id
        = some (now + s.session_ttl))
    ∧ (RedisClient.filteredKwargs kwargs = [] →
      RedisClient.update_session s now st session_id kwargs = st) := by
  by_cases hemp : RedisClient.filteredKwargs kwargs = []
  · have hupd : RedisClient.update_session s now st session_id kwargs = st := by
      simp [RedisClient.update_session, hemp]
    refine ⟨?_, ?_, ?_, fun _ => hupd⟩
    · intro k _
      rw [hupd]
    · intro k v hkv
      exact absurd (hemp ▸ getKV_some_mem_filtered kwargs k v hkv) (List.not_mem_nil _)
    · intro hne
      exact absurd hemp hne
  · have hupd : RedisClient.update_session s now st session_id kwargs =
        { st with
            sessions := setKV st.sessions session_id
              (hsetAll ((getKV st.sessions session_id).getD [])
                (RedisClient.filteredKwargs kwargs))
            ttlDeadline := setKV st.ttlDeadline session_id (now + s.session_ttl) } := by
      simp only [RedisClient.update_session]
      rw [if_neg hemp]
    refine ⟨?_, ?_, ?_, fun h => absurd h hemp⟩
    · intro k hk
      rw [hupd]
      simp only [getKV_setKV_self, Option.getD_some]
      exact hget_hsetAll_not_mem _ _ _ (getKV_none_not_mem_filtered kwargs k hnd hk)
    · intro k v hkv
      rw [hupd]
      simp only [getKV_setKV_self, Option.getD_some]
      exact hget_hsetAll_mem _ _ _ _
        (hnd.sublist (filteredKwargs_keys_sublist kwargs))
        (getKV_some_mem_filtered kwargs k v hkv)
    · intro _
      rw [hupd]
      exact getKV_setKV_self _ _ _

/-- C8 counterexample: an empty-string value is not dropped — it overwrites
the stored `container_id` `c1` — and an all-`None` update leaves the store
(TTL deadline included) untouched rather than refreshing it. -/
theorem update_session_writes_empty_values :
    hget ((getKV (RedisClient.update_session {} 5 sessionReadyState "s"
        [("container_id", some "")]).sessions "s").getD []) "container_id" = some ""
    ∧ hget ((getKV sessionReadyState.sessions "s").getD []) "container_id" = some "c1"
    ∧ RedisClient.update_session {} 5 sessionReadyState "s" [("error", none)]
        = sessionReadyState := by
  decide

/-- Concrete instance of `update_session_amended`: writing the empty string
to `container_id` of the ready session `s`. -/
theorem update_session_amended_witness :
    (([("container_id", some "")].map
        (Prod.fst (α := String) (β := Option String))).Nodup)
    ∧ hget ((getKV (RedisClient.update_session {} 5 sessionReadyState "s"
        [("container_id", some "")]).sessions "s").getD []) "container_id" = some "" :=
  ⟨by decide,
   (update_session_amended {} 5 sessionReadyState "s" [("container_id", some "")]
      (by decide)).2.1 "container_id" "" (by decide)⟩

theorem isPrefixOf_append_self : ∀ (l t : List Char), l.isPrefixOf (l ++ t) = true
  | [], t => by cases t <;> rfl
  | c :: l, t => by simp [List.isPrefixOf, isPrefixOf_append_self l t]

/-- Fuel irrelevance: any fuel covering the input length gives the same
scan result. -/
theorem fmtAux_fuel_eq (fp fn op : List Char) :
    ∀ (fuel fuel' : Nat) (l : List Char), l.length ≤ fuel → l.length ≤ fuel' →
      fmtAux fp fn op fuel l = fmtAux fp fn op fuel' l := by
  intro fuel
  induction fuel with
  | zero =>
      intro fuel' l hl hl'
      cases l with
      | nil => cases fuel' <;> rfl
      | cons c rest => simp at hl
  | succ f ih =>
      intro fuel' l hl hl'
      cases l with
      | nil => cases fuel' <;> rfl
      | cons c rest =>
          cases fuel' with
          | zero => simp at hl'
          | succ f' =>
              have hr : rest.length ≤ f := by simp at hl; omega
              have hr' : rest.length ≤ f' := by simp at hl'; omega
              have hd : ∀ n : Nat, (rest.drop n).length ≤ f := fun n => by
                simp [List.length_drop]; omega
              have hd' : ∀ n : Nat, (rest.drop n).length ≤ f' := fun n => by
                simp [List.length_drop]; omega
              simp only [fmtAux]
              split_ifs <;> first
              | rfl
              | rw [ih f' _ (hd _) (hd' _)]
              | rw [ih f' _ hr hr']

/-- Scanning a brace-free chunk copies it verbatim. -/
theorem fmtAux_append_lit (fp fn op : List Char) :
    ∀ (s rest : List Char) (fuel : Nat),
      (∀ c ∈ s, ¬ c = '{' ∧ ¬ c = '}') → (s ++ rest).length ≤ fuel →
      fmtAux fp fn op fuel (s ++ rest)
        = (fmtAux fp fn op rest.length rest).map (fun l => s ++ l) := by
  intro s
  induction s with
  | nil =>
      intro rest fuel hs hl
      simp only [List.nil_append]
      rw [fmtAux_fuel_eq fp fn op fuel rest.length rest (by simpa using hl) (le_refl _)]
      cases fmtAux fp fn op rest.length rest <;> simp [Except.map]
  | cons c s ih =>
      intro rest fuel hs hl
      obtain ⟨hc1, hc2⟩ := hs c (List.mem_cons_self c s)
      cases fuel with
      | zero => simp at hl
      | succ f =>
          have hl' : (s ++ rest).length ≤ f := by
            simp only [List.cons_append, List.length_cons] at hl
            omega
          show fmtAux fp fn op (f + 1) (c :: (s ++ rest)) = _
          simp only [fmtAux]
          rw [if_neg hc1, if_neg hc2]
          rw [ih rest f (fun c' hc' => hs c' (List.mem_cons_of_mem _ hc')) hl']
          cases fmtAux fp fn op rest.length rest <;> simp [Except.map]

theorem fmtAux_field_fp (fp fn op rest : List Char) (fuel : Nat)
    (hl : ("{file_path}".data ++ rest).length ≤ fuel) :
    fmtAux fp fn op fuel ("{file_path}".data ++ rest)
      = (fmtAux fp fn op rest.length rest).map (fun l => fp ++ l) := by
  cases fuel with
  | zero =>
      exact absurd hl (by
        rw [List.length_append, show ("{file_path}".data).length = 11 from rfl]
        omega)
  | succ f =>
      have hr : rest.length ≤ f := by
        rw [List.length_append, show ("{file_path}".data).length = 11 from rfl] at hl
        omega
      have hno1 : "\x7b".data.isPrefixOf ("file_path\x7d".data ++ rest) = false := rfl
      have hyes : "file_path\x7d".data.isPrefixOf ("file_path\x7d".data ++ rest) = true :=
        isPrefixOf_append_self _ _
      have hdrop : ("file_path\x7d".data ++ rest).drop ("file_path\x7d".data).length = rest :=
        List.drop_left _ _
      rw [show "{file_path}".data ++ rest = '{' :: ("file_path\x7d".data ++ rest) from rfl]
      simp only [fmtAux]
      simp only [hno1, hyes, hdrop]
      simp only [reduceIte, Bool.false_eq_true, if_false, if_true]
      rw [fmtAux_fuel_eq fp fn op f rest.length rest hr (le_refl _)]

theorem fmtAux_field_fn (fp fn op rest : List Char) (fuel : Nat)
    (hl : ("{filename}".data ++ rest).length ≤ fuel) :
    fmtAux fp fn op fuel ("{filename}".data ++ rest)
      = (fmtAux fp fn op rest.length rest).map (fun l => fn ++ l) := by
  cases fuel with
  | zero =>
      exact absurd hl (by
        rw [List.length_append, show ("{filename}".data).length = 10 from rfl]
        omega)
  | succ f =>
      have hr : rest.length ≤ f := by
        rw [List.length_append, show ("{filename}".data).length = 10 from rfl] at hl
        omega
      have hno1 : "\x7b".data.isPrefixOf ("filename\x7d".data ++ rest) = false := rfl
      have hno2 : "file_path\x7d".data.isPrefixOf ("filename\x7d".data ++ rest) = false := rfl
      have hyes : "filename\x7d".data.isPrefixOf ("filename\x7d".data ++ rest) = true :=
        isPrefixOf_append_self _ _
      have hdrop : ("filename\x7d".data ++ rest).drop ("filename\x7d".data).length = rest :=
        List.drop_left _ _
      rw [show "{filename}".data ++ rest = '{' :: ("filename\x7d".data ++ rest) from rfl]
      simp only [fmtAux]
      simp only [hno1, hno2, hyes, hdrop]
      simp only [reduceIte, Bool.false_eq_true, if_false, if_true]
      rw [fmtAux_fuel_eq fp fn op f rest.length rest hr (le_refl _)]

theorem fmtAux_field_op (fp fn op rest : List Char) (fuel : Nat)
    (hl : ("{output_path}".data ++ rest).length ≤ fuel) :
    fmtAux fp fn op fuel ("{output_path}".data ++ rest)
      = (fmtAux fp fn op rest.length rest).map (fun l => op ++ l) := by
  cases fuel with
  | zero =>
      exact absurd hl (by
        rw [List.length_append, show ("{output_path}".data).length = 13 from rfl]
        omega)
  | succ f =>
      have hr : rest.length ≤ f := by
        rw [List.length_append, show ("{output_path}".data).length = 13 from rfl] at hl
        omega
      have hno1 : "\x7b".data.isPrefixOf ("output_path\x7d".data ++ rest) = false := rfl
      have hno2 : "file_path\x7d".data.isPrefixOf ("output_path\x7d".data ++ rest) = false := rfl
      have hno3 : "filename\x7d".data.isPrefixOf ("output_path\x7d".data ++ rest) = false := rfl
      have hyes : "output_path\x7d".data.isPrefixOf ("output_path\x7d".data ++ rest) = true :=
        isPrefixOf_append_self _ _
      have hdrop : ("output_path\x7d".data ++ rest).drop ("output_path\x7d".data).length = rest :=
        List.drop_left _ _
      rw [show "{output_path}".data ++ rest = '{' :: ("output_path\x7d".data ++ rest) from rfl]
      simp only [fmtAux]
      simp only [hno1, hno2, hno3, hyes, hdrop]
      simp only [reduceIte, Bool.false_eq_true, if_false, if_true]
      rw [fmtAux_fuel_eq fp fn op f rest.length rest hr (le_refl _)]

/-- The scanner realizes plain substitution on every well-formed template. -/
theorem fmtAux_render (fp fn op : List Char) :
    ∀ (t : List TmplPiece) (fuel : Nat), Tmpl.wf t → (Tmpl.renderL t).length ≤ fuel →
      fmtAux fp fn op fuel (Tmpl.renderL t) = .ok (Tmpl.substL fp fn op t) := by
  intro t
  induction t with
  | nil =>
      intro fuel _ _
      cases fuel <;> rfl
  | cons p t ih =>
      intro fuel hwf hl
      have hwt : Tmpl.wf t := fun q hq => hwf q (List.mem_cons_of_mem _ hq)
      cases p with
      | lit s =>
          have hbf : ∀ c ∈ s.data, ¬ c = '{' ∧ ¬ c = '}' := by
            have hw := hwf (.lit s) (List.mem_cons_self _ _)
            simp only [TmplPiece.wfB, braceFreeB, List.all_eq_true] at hw
            intro c hc
            have := hw c hc
            simp only [Bool.and_eq_true, bne_iff_ne] at this
            exact this
          show fmtAux fp fn op fuel (s.data ++ Tmpl.renderL t) = _
          rw [fmtAux_append_lit fp fn op s.data (Tmpl.renderL t) fuel hbf hl]
          rw [ih (Tmpl.renderL t).length hwt (le_refl _)]
          rfl
      | file_path =>
          show fmtAux fp fn op fuel ("{file_path}".data ++ Tmpl.renderL t) = _
          rw [fmtAux_field_fp fp fn op (Tmpl.renderL t) fuel hl]
          rw [ih (Tmpl.renderL t).length hwt (le_refl _)]
          rfl
      | filename =>
          show fmtAux fp fn op fuel ("{filename}".data ++ Tmpl.renderL t) = _
          rw [fmtAux_field_fn fp fn op (Tmpl.renderL t) fuel hl]
          rw [ih (Tmpl.renderL t).length hwt (le_refl _)]
          rfl
      | output_path =>
          show fmtAux fp fn op fuel ("{output_path}".data ++ Tmpl.renderL t) = _
          rw [fmtAux_field_op fp fn op (Tmpl.renderL t) fuel hl]
          rw [ih (Tmpl.renderL t).length hwt (le_refl _)]
          rfl

theorem pyFormat3_render (fp fn op : List Char) (t : List TmplPiece) (hwf : Tmpl.wf t) :
    pyFormat3 fp fn op (Tmpl.renderL t) = .ok (Tmpl.substL fp fn op t) :=
  fmtAux_render fp fn op t (Tmpl.renderL t).length hwf (le_refl _)

/-- C9: for every well-formed run-command template and file path, the code's
expansion substitutes `{file_path}`, `{filename}` (the basename) and
`{output_path}` (the path with its extension stripped) as a plain
substitution; the expanded command is tokenized to the three-element argv
`[sh, -c, rest]` exactly when it starts with the literal `sh -c `, and is
split on whitespace otherwise; and expansion is deterministic: two
expansions of the same template and path are identical. -/
theorem run_command_expansion (ec : EnvironmentConfig) (t : List TmplPiece) (fp : String)
    (hwf : Tmpl.wf t) (ht : ec.run_command = (Tmpl.renderL t).asString) :
    (ec.get_run_command fp
      = .ok (parseCmdL (Tmpl.substL fp.data (pyBasename fp).data (pyStripExt fp).data t)))
    ∧ ("sh -c ".data.isPrefixOf
          (Tmpl.substL fp.data (pyBasename fp).data (pyStripExt fp).data t) = true →
        ∃ rest, parseCmdL (Tmpl.substL fp.data (pyBasename fp).data (pyStripExt fp).data t)
          = ["sh", "-c", rest])
    ∧ ("sh -c ".data.isPrefixOf
          (Tmpl.substL fp.data (pyBasename fp).data (pyStripExt fp).data t) = false →
        parseCmdL (Tmpl.substL fp.data (pyBasename fp).data (pyStripExt fp).data t)
          = splitWs (Tmpl.substL fp.data (pyBasename fp).data (pyStripExt fp).data t))
    ∧ ec.get_run_command fp = ec.get_run_command fp := by
  refine ⟨?_, ?_, ?_, rfl⟩
  · simp only [EnvironmentConfig.get_run_command]
    rw [ht, show ((Tmpl.renderL t).asString).data = Tmpl.renderL t from rfl,
      pyFormat3_render fp.data (pyBasename fp).data (pyStripExt fp).data t hwf]
  · intro h
    simp only [parseCmdL]
    rw [if_pos h]
    exact ⟨_, rfl⟩
  · intro h
    simp only [parseCmdL]
    rw [if_neg (by simp [h])]

/-- Concrete instance of `run_command_expansion`: the `python` template on
`/workspace/main.py`. -/
theorem run_command_expansion_witness :
    Tmpl.wf [TmplPiece.lit "python ", TmplPiece.file_path]
    ∧ pythonEnvConfig.run_command
        = (Tmpl.renderL [TmplPiece.lit "python ", TmplPiece.file_path]).asString
    ∧ pythonEnvConfig.get_run_command "/workspace/main.py"
        = .ok (parseCmdL (Tmpl.substL "/workspace/main.py".data
            (pyBasename "/workspace/main.py").data (pyStripExt "/workspace/main.py").data
            [TmplPiece.lit "python ", TmplPiece.file_path])) :=
  ⟨by decide, by decide,
   (run_command_expansion pythonEnvConfig [TmplPiece.lit "python ", TmplPiece.file_path]
      "/workspace/main.py" (by decide) (by decide)).1⟩

theorem getKV_mem {α : Type} : ∀ (l : List (String × α)) (k : String) (v : α),
    getKV l k = some v → (k, v) ∈ l := by
  intro l
  induction l with
  | nil => intro k v h; simp [getKV] at h
  | cons p rest ih =>
      intro k v h
      obtain ⟨k0, v0⟩ := p
      by_cases hk : k0 = k
      · subst hk
        rw [getKV_cons_self] at h
        injection h with h
        subst h
        exact List.mem_cons_self _ _
      · rw [getKV_cons_ne k0 k v0 rest hk] at h
        exact List.mem_cons_of_mem _ (ih k v h)

theorem getLastD_mem_or {α : Type} : ∀ (l : List α) (d : α),
    l.getLastD d = d ∨ l.getLastD d ∈ l
  | [], _ => Or.inl rfl
  | a :: l, d => by
      rcases getLastD_mem_or l a with h | h
      · refine Or.inr ?_
        rw [List.getLastD_cons, h]
        exact List.mem_cons_self _ _
      · refine Or.inr ?_
        rw [List.getLastD_cons]
        exact List.mem_cons_of_mem _ h

theorem readyHasContainer_setKV {l : List (String × Hash)} {id : String} {h' : Hash}
    (hl : ∀ p ∈ l, hashOK p.2) (hh : hashOK h') : ∀ p ∈ setKV l id h', hashOK p.2 := by
  intro p hp
  rcases mem_setKV l id h' p hp with rfl | hp'
  · exact hh
  · exact hl p hp'

theorem hashOK_getD {l : List (String × Hash)} (h : ∀ p ∈ l, hashOK p.2) (id : String) :
    hashOK ((getKV l id).getD []) := by
  cases hk : getKV l id with
  | none =>
      intro hrun
      rcases hrun with hrun | hrun <;> simp [hget, getKV] at hrun
  | some hh => exact h (id, hh) (getKV_mem l id hh hk)

theorem hashOK_set_status_nonrun (h : Hash) (status : String)
    (h1 : status ≠ "ready") (h2 : status ≠ "executing") :
    hashOK (setKV h "status" status) := by
  intro hrun
  rw [show hget (setKV h "status" status) "status" = some status from
    getKV_setKV_self h "status" status] at hrun
  rcases hrun with hrun | hrun <;> injection hrun with hrun
  · exact absurd hrun h1
  · exact absurd hrun h2

theorem hashOK_set_container_nonempty (h : Hash) (cid : String) (hc : cid ≠ "") :
    hashOK (setKV h "container_id" cid) := by
  intro _
  rw [show hget (setKV h "container_id" cid) "container_id" = some cid from
    getKV_setKV_self h "container_id" cid]
  simpa using hc

theorem hashOK_set_status_of_container (h : Hash) (status : String)
    (hc : (hget h "container_id").getD "" ≠ "") :
    hashOK (setKV h "status" status) := by
  intro _
  rw [show hget (setKV h "status" status) "container_id" = hget h "container_id" from
    getKV_setKV_ne h "status" "container_id" status (by decide)]
  exact hc

theorem hashOK_set_other (h : Hash) (k v : String)
    (hk1 : k ≠ "status") (hk2 : k ≠ "container_id") (hh : hashOK h) :
    hashOK (setKV h k v) := by
  intro hrun
  rw [show hget (setKV h k v) "status" = hget h "status" from
    getKV_setKV_ne h k "status" v (fun e => hk1 e.symm)] at hrun
  rw [show hget (setKV h k v) "container_id" = hget h "container_id" from
    getKV_setKV_ne h k "container_id" v (fun e => hk2 e.symm)]
  exact hh hrun

theorem hashOK_create_fields (h : Hash) (id env : String) :
    hashOK (hsetAll h
      [("session_id", id), ("environment", env), ("status", "pending"),
       ("created_at", ""), ("last_execution", ""), ("container_id", "")]) := by
  intro hrun
  have hs : hget (hsetAll h
      [("session_id", id), ("environment", env), ("status", "pending"),
       ("created_at", ""), ("last_execution", ""), ("container_id", "")]) "status"
      = some "pending" :=
    hget_hsetAll_mem _ h "status" "pending"
      (by
        rw [show List.map Prod.fst
            [("session_id", id), ("environment", env), ("status", "pending"),
             ("created_at", ""), ("last_execution", ""), ("container_id", "")]
          = ["session_id", "environment", "status", "created_at",
             "last_execution", "container_id"] from rfl]
        decide)
      (List.mem_cons_of_mem _ (List.mem_cons_of_mem _ (List.mem_cons_self _ _)))
  rw [hs] at hrun
  rcases hrun with hrun | hrun <;> injection hrun with hrun <;> exact absurd hrun (by decide)

theorem set_status_sessions (sett : Settings) (now : Nat) (st : RedisState)
    (id status : String) :
    (RedisClient.set_status sett now st id status).sessions
      = setKV st.sessions id (setKV ((getKV st.sessions id).getD []) "status" status) := rfl

theorem set_container_id_sessions (sett : Settings) (now : Nat) (st : RedisState)
    (id cid : String) :
    (RedisClient.set_container_id sett now st id cid).sessions
      = setKV st.sessions id
          (setKV ((getKV st.sessions id).getD []) "container_id" cid) := rfl

theorem update_error_sessions (sett : Settings) (now : Nat) (st : RedisState)
    (id msg : String) :
    (RedisClient.update_session sett now st id [("error", some msg)]).sessions
      = setKV st.sessions id (setKV ((getKV st.sessions id).getD []) "error" msg) := rfl

theorem create_session_sessions (sett : Settings) (now : Nat) (st : RedisState)
    (id env status : String) :
    (RedisClient.create_session sett now st id env status).sessions
      = setKV st.sessions id (hsetAll ((getKV st.sessions id).getD [])
          [("session_id", id), ("environment", env), ("status", status),
           ("created_at", ""), ("last_execution", ""), ("container_id", "")]) := rfl

theorem set_container_id_hash (sett : Settings) (now : Nat) (st : RedisState)
    (id cid : String) :
    (getKV (RedisClient.set_container_id sett now st id cid).sessions id).getD []
      = setKV ((getKV st.sessions id).getD []) "container_id" cid := by
  rw [set_container_id_sessions, getKV_setKV_self]
  rfl

theorem readyHasContainer_set_status_nonrun (sett : Settings) (now : Nat) (st : RedisState)
    (id status : String) (h1 : status ≠ "ready") (h2 : status ≠ "executing")
    (h : readyHasContainer st) :
    readyHasContainer (RedisClient.set_status sett now st id status) := by
  unfold readyHasContainer
  rw [set_status_sessions]
  exact readyHasContainer_setKV h (hashOK_set_status_nonrun _ status h1 h2)

theorem readyHasContainer_set_container (sett : Settings) (now : Nat) (st : RedisState)
    (id cid : String) (hc : cid ≠ "") (h : readyHasContainer st) :
    readyHasContainer (RedisClient.set_container_id sett now st id cid) := by
  unfold readyHasContainer
  rw [set_container_id_sessions]
  exact readyHasContainer_setKV h (hashOK_set_container_nonempty _ cid hc)

theorem readyHasContainer_set_status_any (sett : Settings) (now : Nat) (st : RedisState)
    (id status : String)
    (hc : (hget ((getKV st.sessions id).getD []) "container_id").getD "" ≠ "")
    (h : readyHasContainer st) :
    readyHasContainer (RedisClient.set_status sett now st id status) := by
  unfold readyHasContainer
  rw [set_status_sessions]
  exact readyHasContainer_setKV h (hashOK_set_status_of_container _ status hc)

theorem readyHasContainer_update_error (sett : Settings) (now : Nat) (st : RedisState)
    (id msg : String) (h : readyHasContainer st) :
    readyHasContainer (RedisClient.update_session sett now st id [("error", some msg)]) := by
  unfold readyHasContainer
  rw [update_error_sessions]
  exact readyHasContainer_setKV h
    (hashOK_set_other _ "error" msg (by decide) (by decide) (hashOK_getD h id))

theorem readyHasContainer_create (sett : Settings) (now : Nat) (st : RedisState)
    (id env : String) (h : readyHasContainer st) :
    readyHasContainer (RedisClient.create_session sett now st id env "pending") := by
  unfold readyHasContainer
  rw [create_session_sessions]
  exact readyHasContainer_setKV h (hashOK_create_fields _ id env)

theorem get_session_getKV (st : RedisState) (id : String) (session : Hash)
    (h : RedisClient.get_session st id = some session) :
    getKV st.sessions id = some session := by
  unfold RedisClient.get_session at h
  cases hk : getKV st.sessions id with
  | none =>
      rw [hk] at h
      dsimp only at h
      exact Option.noConfusion h
  | some hh =>
      rw [hk] at h
      dsimp only at h
      by_cases he : List.isEmpty hh = true
      · rw [if_pos he] at h
        exact Option.noConfusion h
      · rw [if_neg he] at h
        injection h with h
        rw [h]

/-- The store states the `execute_code` worker writes: none when it returns
early, or the `executing`/`error` pair. -/
theorem execute_code_states (sett : Settings) (st : RedisState) (id code : String)
    (filename stdin_data : Option String) :
    (tasks.execute_code sett st id code filename stdin_data).1 = []
    ∨ ∃ session, RedisClient.get_session st id = some session
        ∧ (hget session "container_id").getD "" ≠ ""
        ∧ (tasks.execute_code sett st id code filename stdin_data).1
          = [RedisClient.set_status sett 0 st id "executing",
             RedisClient.set_status sett 0 (RedisClient.set_status sett 0 st id "executing")
               id "error"] := by
  unfold tasks.execute_code
  cases hsess : RedisClient.get_session st id with
  | none => exact Or.inl rfl
  | some session =>
      dsimp only
      by_cases hcont : (hget session "container_id").getD "" = ""
      · rw [if_pos hcont]
        exact Or.inl rfl
      · rw [if_neg hcont]
        exact Or.inr ⟨session, rfl, hcont, rfl⟩

/-- Every store state written by a single operation keeps the amended
invariant, provided the container-id oracle yields non-empty handles. -/
theorem opStates_preserve (sett : Settings) (st : RedisState) (op : Op)
    (hwf : Op.wfB op = true) (h : readyHasContainer st) :
    ∀ st' ∈ opStates sett st op, readyHasContainer st' := by
  cases op with
  | create id env =>
      intro st' hst'
      simp only [opStates] at hst'
      by_cases henv : env ∈ sett.environments_list
      · rw [if_pos henv] at hst'
        simp only [List.mem_singleton] at hst'
        subst hst'
        exact readyHasContainer_create sett 0 st id env h
      · rw [if_neg henv] at hst'
        cases hst'
  | startSession id env outcome =>
      intro st' hst'
      simp only [opStates] at hst'
      cases outcome with
      | ok cid =>
          have hcid : cid ≠ "" := by
            simpa [Op.wfB] using hwf
          have h1 := readyHasContainer_set_status_nonrun sett 0 st id "creating"
            (by decide) (by decide) h
          have h2 := readyHasContainer_set_container sett 0
            (RedisClient.set_status sett 0 st id "creating") id cid hcid h1
          have h3 : readyHasContainer (RedisClient.set_status sett 0
              (RedisClient.set_container_id sett 0
                (RedisClient.set_status sett 0 st id "creating") id cid) id "ready") := by
            apply readyHasContainer_set_status_any sett 0 _ id "ready" _ h2
            rw [set_container_id_hash]
            rw [show hget (setKV ((getKV (RedisClient.set_status sett 0 st id
                "creating").sessions id).getD []) "container_id" cid) "container_id"
              = some cid from getKV_setKV_self _ _ _]
            simpa using hcid
          rw [show tasks.start_session sett st id env (CreateOutcome.ok cid)
              = [RedisClient.set_status sett 0 st id "creating",
                 RedisClient.set_container_id sett 0
                   (RedisClient.set_status sett 0 st id "creating") id cid,
                 RedisClient.set_status sett 0
                   (RedisClient.set_container_id sett 0
                     (RedisClient.set_status sett 0 st id "creating") id cid) id "ready"]
            from rfl] at hst'
          simp only [List.mem_cons, List.not_mem_nil, or_false] at hst'
          rcases hst' with rfl | rfl | rfl
          · exact h1
          · exact h2
          · exact h3
      | failure msg =>
          have h1 := readyHasContainer_set_status_nonrun sett 0 st id "creating"
            (by decide) (by decide) h
          have h2 := readyHasContainer_set_status_nonrun sett 0
            (RedisClient.set_status sett 0 st id "creating") id "error"
            (by decide) (by decide) h1
          have h3 := readyHasContainer_update_error sett 0
            (RedisClient.set_status sett 0
              (RedisClient.set_status sett 0 st id "creating") id "error") id msg h2
          rw [show tasks.start_session sett st id env (CreateOutcome.failure msg)
              = [RedisClient.set_status sett 0 st id "creating",
                 RedisClient.set_status sett 0
                   (RedisClient.set_status sett 0 st id "creating") id "error",
                 RedisClient.update_session sett 0
                   (RedisClient.set_status sett 0
                     (RedisClient.set_status sett 0 st id "creating") id "error") id
                   [("error", some msg)]]
            from rfl] at hst'
          simp only [List.mem_cons, List.not_mem_nil, or_false] at hst'
          rcases hst' with rfl | rfl | rfl
          · exact h1
          · exact h2
          · exact h3
  | execCode id code filename stdin_data =>
      intro st' hst'
      simp only [opStates] at hst'
      rcases execute_code_states sett st id code filename stdin_data with
        hnil | ⟨session, hsess, hcont, hsts⟩
      · rw [hnil] at hst'
        cases hst'
      · rw [hsts] at hst'
        have hses_eq : (getKV st.sessions id).getD [] = session := by
          rw [get_session_getKV st id session hsess]
          rfl
        have h1 := readyHasContainer_set_status_any sett 0 st id "executing"
          (by rw [hses_eq]; exact hcont) h
        have h2 := readyHasContainer_set_status_nonrun sett 0
          (RedisClient.set_status sett 0 st id "executing") id "error"
          (by decide) (by decide) h1
        simp only [List.mem_cons, List.not_mem_nil, or_false] at hst'
        rcases hst' with rfl | rfl
        · exact h1
        · exact h2
  | stopSession id stop_raises =>
      intro st' hst'
      have h1 := readyHasContainer_set_status_nonrun sett 0 st id "stopping"
        (by decide) (by decide) h
      have h2 := readyHasContainer_set_status_nonrun sett 0
        (RedisClient.set_status sett 0 st id "stopping") id "stopped"
        (by decide) (by decide) h1
      cases stop_raises with
      | true =>
          rw [show opStates sett st (Op.stopSession id true)
              = [RedisClient.set_status sett 0 st id "stopping"] from rfl] at hst'
          simp only [List.mem_singleton] at hst'
          subst hst'
          exact h1
      | false =>
          rw [show opStates sett st (Op.stopSession id false)
              = [RedisClient.set_status sett 0 st id "stopping",
                 RedisClient.set_status sett 0
                   (RedisClient.set_status sett 0 st id "stopping") id "stopped"]
            from rfl] at hst'
          simp only [List.mem_cons, List.not_mem_nil, or_false] at hst'
          rcases hst' with rfl | rfl
          · exact h1
          · exact h2

/-- Trace-level preservation of the amended invariant. -/
theorem traceStates_preserve (sett : Settings) :
    ∀ (ops : List Op) (st : RedisState), (∀ op ∈ ops, Op.wfB op = true) →
      readyHasContainer st →
      ∀ st' ∈ traceStates sett st ops, readyHasContainer st' := by
  intro ops
  induction ops with
  | nil =>
      intro st _ _ st' hst'
      simp [traceStates] at hst'
  | cons op ops ih =>
      intro st hwf h st' hst'
      simp only [traceStates, List.mem_append] at hst'
      have hop := opStates_preserve sett st op (hwf op (List.mem_cons_self _ _)) h
      rcases hst' with hst' | hst'
      · exact hop st' hst'
      · have hlast : readyHasContainer ((opStates sett st op).getLastD st) := by
          rcases getLastD_mem_or (opStates sett st op) st with heq | hmem
          · rw [heq]; exact h
          · exact hop _ hmem
        exact ih ((opStates sett st op).getLastD st)
          (fun o ho => hwf o (List.mem_cons_of_mem _ ho)) hlast st' hst'

/-- C3 counterexample: the invariant as stated — container handle non-empty
iff status ∈ {ready, executing, stopping} — fails on concrete traces.
After `create; start_session(ok c1); stop_session` the final record is
`stopped` with container `c1` (handle non-empty, status outside the set),
and in `create; stop_session` the state right after the `stopping` write
has status `stopping` with an empty handle. -/
theorem container_iff_status_fails :
    (¬ ∀ st ∈ traceStates sampleSettings RedisState.empty
        [Op.create "s" "python", Op.startSession "s" "python" (.ok "c1"),
         Op.stopSession "s" false], containerIffStatus st)
    ∧ (¬ ∀ st ∈ traceStates sampleSettings RedisState.empty
        [Op.create "s" "python", Op.stopSession "s" false], containerIffStatus st) := by
  decide

/-- C3 amended: in every trace of store operations (create, start_session,
execute_code, stop_session) from the empty store, at every intermediate
point, every session whose status is `ready` or `executing` has a non-empty
`container_id`.  (The claimed equivalence with {ready, executing, stopping}
fails in both directions, see `container_iff_status_fails`: `stop_session`
never clears the handle, so `stopped`/`error` records keep it, and it sets
`stopping` even when no container exists.) -/
theorem ready_implies_container (sett : Settings) (ops : List Op)
    (hwf : ∀ op ∈ ops, Op.wfB op = true) :
    ∀ st ∈ traceStates sett RedisState.empty ops, readyHasContainer st :=
  traceStates_preserve sett ops RedisState.empty hwf
    (fun p hp => absurd hp (List.not_mem_nil p))

/-- Concrete instance of `ready_implies_container` on a full lifecycle trace:
create, successful start, execute, stop. -/
theorem ready_implies_container_witness :
    (c3TraceOps.all Op.wfB = true)
    ∧ readyHasContainer
        ((traceStates sampleSettings RedisState.empty c3TraceOps).getLastD
          RedisState.empty) :=
  ⟨by decide,
   ready_implies_container sampleSettings c3TraceOps (by decide) _ (by decide)⟩

/-- Concrete instance of `timeout_stderr_marker`: a completed exec with exit
code 124 yields a stderr carrying the timeout marker. -/
theorem timeout_stderr_marker_witness :
    ((DockerExecutor.execute_code {} "c1" "while True: pass" "python" none
        (.completed none (some "b") 124 5)).exit_code = 124)
    ∧ ∃ rest, (DockerExecutor.execute_code {} "c1" "while True: pass" "python" none
        (.completed none (some "b") 124 5)).stderr = "Execution timed out\n" ++ rest :=
  ⟨by decide,
   timeout_stderr_marker {} "c1" "while True: pass" "python" none
     (.completed none (some "b") 124 5) (by decide)⟩
